import Mathlib

/-!
Verification of the bittensor repository's wire schema
(src/opentensor/opentensor_pb2.py) and of the CIFAR example
(src/examples/cifar/main.py).

The repository ships the generated protobuf descriptor module for the
proto3 schema `opentensor/opentensor.proto` (messages SynapseBatch,
Synapse, TensorMessage, Tensor, TensorDef; enum DataType; services
Opentensor and Metagraph).  The descriptors fix every field name, field
number, wire type and label; the byte-level codec they induce is the
standard proto3 wire format, which we model below.  Integers are Nat with
explicit bounds where the wire width matters; a float32 field is modelled
by its 32-bit pattern; byte strings are lists of byte values.
-/

namespace Opentensor

/-! ### proto3 primitive wire encodings -/

/-- Modelled from the spec: the protobuf runtime's base-128 varint encoder
(little-endian 7-bit groups, continuation bit 0x80); the runtime itself is
not part of this repository, only the generated descriptors are. -/
def encVarint (n : Nat) : List Nat :=
  if n < 128 then [n]
  else (n % 128 + 128) :: encVarint (n / 128)
  termination_by n
  decreasing_by exact Nat.div_lt_self (by omega) (by omega)

/-- Modelled from the spec: the protobuf runtime's varint decoder.  Returns
the decoded value and the remaining bytes, or none on truncated input. -/
def parseVarint : List Nat → Option (Nat × List Nat)
  | [] => none
  | b :: rest =>
    if b < 128 then some (b, rest)
    else
      match parseVarint rest with
      | some (n, r) => some ((b - 128) + 128 * n, r)
      | none => none

theorem encVarint_small {n : Nat} (h : n < 128) : encVarint n = [n] := by
  rw [encVarint, if_pos h]

theorem parseVarint_encVarint (n : Nat) (r : List Nat) :
    parseVarint (encVarint n ++ r) = some (n, r) := by
  induction n using Nat.strong_induction_on with
  | _ n ih =>
    by_cases h : n < 128
    · rw [encVarint, if_pos h]
      simp [parseVarint, h]
    · rw [encVarint, if_neg h]
      have hb : ¬ (n % 128 + 128 < 128) := by omega
      have hdiv : n / 128 < n := Nat.div_lt_self (by omega) (by omega)
      simp only [List.cons_append, parseVarint, if_neg hb, List.append_eq,
        ih (n / 128) hdiv]
      have : n % 128 + 128 - 128 + 128 * (n / 128) = n := by omega
      rw [this]

theorem parseVarint_shrinks {bs r : List Nat} {n : Nat}
    (h : parseVarint bs = some (n, r)) : r.length < bs.length := by
  induction bs generalizing n r with
  | nil => simp [parseVarint] at h
  | cons b rest ih =>
    simp only [parseVarint] at h
    by_cases hb : b < 128
    · rw [if_pos hb] at h
      cases h
      simp
    · rw [if_neg hb] at h
      cases hrec : parseVarint rest with
      | none => rw [hrec] at h; cases h
      | some v =>
        rw [hrec] at h
        cases h
        have := ih hrec
        simp
        omega

/-- Little-endian fixed-width encoding (`w` bytes) used for fixed32/fixed64
wire values; a float32 field carries its bit pattern this way. -/
def encFixed : Nat → Nat → List Nat
  | 0, _ => []
  | w + 1, n => (n % 256) :: encFixed w (n / 256)

def parseFixed : Nat → List Nat → Option (Nat × List Nat)
  | 0, bs => some (0, bs)
  | _ + 1, [] => none
  | w + 1, b :: bs =>
    match parseFixed w bs with
    | some (n, r) => some (b + 256 * n, r)
    | none => none

theorem parseFixed_encFixed (w : Nat) (n : Nat) (hn : n < 256 ^ w) (r : List Nat) :
    parseFixed w (encFixed w n ++ r) = some (n, r) := by
  induction w generalizing n with
  | zero =>
    simp only [Nat.pow_zero, Nat.lt_one_iff] at hn
    subst hn
    simp [encFixed, parseFixed]
  | succ k ih =>
    have hdiv : n / 256 < 256 ^ k := by
      rw [Nat.div_lt_iff_lt_mul (by omega)]
      rw [Nat.pow_succ] at hn
      omega
    simp only [encFixed, List.cons_append, parseFixed, List.append_eq,
      ih (n / 256) hdiv]
    have : n % 256 + 256 * (n / 256) = n := by omega
    rw [this]

theorem parseFixed_shrinks {w : Nat} {bs r : List Nat} {n : Nat}
    (h : parseFixed w bs = some (n, r)) : r.length ≤ bs.length := by
  induction w generalizing bs r n with
  | zero =>
    simp only [parseFixed] at h
    cases h
    exact Nat.le_refl _
  | succ k ih =>
    cases bs with
    | nil => simp [parseFixed] at h
    | cons b rest =>
      simp only [parseFixed] at h
      cases hrec : parseFixed k rest with
      | none => rw [hrec] at h; cases h
      | some v =>
        rw [hrec] at h
        cases h
        have := ih hrec
        simp
        omega

/-! ### wire records: tag + value -/

/-- A single decoded wire value: wire type 0 (varint), 1 (fixed64),
2 (length-delimited) or 5 (fixed32). -/
inductive WireVal where
  | varint (n : Nat)
  | i64 (n : Nat)
  | ld (payload : List Nat)
  | i32 (n : Nat)
deriving DecidableEq

/-- The wire type carried in the low three bits of a record's tag. -/
def WireVal.wt : WireVal → Nat
  | .varint _ => 0
  | .i64 _ => 1
  | .ld _ => 2
  | .i32 _ => 5

/-- Encode one field record: a tag varint `fieldNumber * 8 + wireType`
followed by the value's wire encoding. -/
def encItem : Nat × WireVal → List Nat
  | (f, .varint n) => encVarint (f * 8 + 0) ++ encVarint n
  | (f, .i64 n) => encVarint (f * 8 + 1) ++ encFixed 8 n
  | (f, .ld p) => encVarint (f * 8 + 2) ++ encVarint p.length ++ p
  | (f, .i32 n) => encVarint (f * 8 + 5) ++ encFixed 4 n

def encItems (items : List (Nat × WireVal)) : List Nat :=
  items.foldr (fun it acc => encItem it ++ acc) []

/-- Parse one field record off the front of the stream. -/
def parseItem (bs : List Nat) : Option ((Nat × WireVal) × List Nat) :=
  match parseVarint bs with
  | none => none
  | some (tag, rest) =>
    match tag % 8 with
    | 0 =>
      match parseVarint rest with
      | some (n, r) => some ((tag / 8, .varint n), r)
      | none => none
    | 1 =>
      match parseFixed 8 rest with
      | some (n, r) => some ((tag / 8, .i64 n), r)
      | none => none
    | 2 =>
      match parseVarint rest with
      | some (len, r) =>
        if len ≤ r.length then some ((tag / 8, .ld (r.take len)), r.drop len)
        else none
      | none => none
    | 5 =>
      match parseFixed 4 rest with
      | some (n, r) => some ((tag / 8, .i32 n), r)
      | none => none
    | _ => none

theorem parseItem_shrinks {bs r : List Nat} {it : Nat × WireVal}
    (h : parseItem bs = some (it, r)) : r.length < bs.length := by
  unfold parseItem at h
  cases htag : parseVarint bs with
  | none => rw [htag] at h; cases h
  | some v =>
    obtain ⟨tag, rest⟩ := v
    rw [htag] at h
    have hrest := parseVarint_shrinks htag
    have h8 : tag % 8 < 8 := Nat.mod_lt _ (by omega)
    interval_cases hm : tag % 8 <;> simp only [hm] at h
    · cases hv : parseVarint rest with
      | none => rw [hv] at h; cases h
      | some w =>
        obtain ⟨n, r2⟩ := w
        rw [hv] at h
        cases h
        have := parseVarint_shrinks hv
        omega
    · cases hv : parseFixed 8 rest with
      | none => rw [hv] at h; cases h
      | some w =>
        obtain ⟨n, r2⟩ := w
        rw [hv] at h
        cases h
        have := parseFixed_shrinks hv
        omega
    · cases hv : parseVarint rest with
      | none => rw [hv] at h; cases h
      | some w =>
        obtain ⟨len, r2⟩ := w
        rw [hv] at h
        dsimp only at h
        by_cases hlen : len ≤ r2.length
        · rw [if_pos hlen] at h
          cases h
          have := parseVarint_shrinks hv
          simp only [List.length_drop]
          omega
        · rw [if_neg hlen] at h; cases h
    · cases h
    · cases h
    · cases hv : parseFixed 4 rest with
      | none => rw [hv] at h; cases h
      | some w =>
        obtain ⟨n, r2⟩ := w
        rw [hv] at h
        cases h
        have := parseFixed_shrinks hv
        omega
    · cases h
    · cases h

/-- Parse the whole stream into its sequence of field records; any
truncated or malformed record fails the whole parse. -/
def parseItems (bs : List Nat) : Option (List (Nat × WireVal)) :=
  match bs with
  | [] => some []
  | b :: rest =>
    match h : parseItem (b :: rest) with
    | none => none
    | some (it, r) =>
      match parseItems r with
      | some items => some (it :: items)
      | none => none
  termination_by bs.length
  decreasing_by exact parseItem_shrinks h

/-- A field record an encoder can emit: fixed-width values fit their width. -/
def itemValid (it : Nat × WireVal) : Bool :=
  match it.2 with
  | .i64 n => decide (n < 2 ^ 64)
  | .i32 n => decide (n < 2 ^ 32)
  | _ => true

theorem parseItem_encItem (it : Nat × WireVal) (r : List Nat)
    (hv : itemValid it = true) :
    parseItem (encItem it ++ r) = some (it, r) := by
  obtain ⟨f, v⟩ := it
  have h8 : ∀ w, w < 8 → (f * 8 + w) % 8 = w ∧ (f * 8 + w) / 8 = f := by
    intro w hw
    constructor
    · omega
    · omega
  cases v with
  | varint n =>
    simp only [encItem, List.append_assoc, parseItem, parseVarint_encVarint,
      (h8 0 (by omega)).1, (h8 0 (by omega)).2]
  | i64 n =>
    simp only [itemValid, decide_eq_true_eq] at hv
    simp only [encItem, List.append_assoc, parseItem, parseVarint_encVarint,
      (h8 1 (by omega)).1, (h8 1 (by omega)).2,
      parseFixed_encFixed 8 n (by exact_mod_cast hv) r]
  | ld p =>
    simp only [encItem, List.append_assoc, parseItem, parseVarint_encVarint,
      (h8 2 (by omega)).1, (h8 2 (by omega)).2]
    rw [if_pos (by simp)]
    simp [List.take_left, List.drop_left]
  | i32 n =>
    simp only [itemValid, decide_eq_true_eq] at hv
    simp only [encItem, List.append_assoc, parseItem, parseVarint_encVarint,
      (h8 5 (by omega)).1, (h8 5 (by omega)).2,
      parseFixed_encFixed 4 n (by exact_mod_cast hv) r]

def itemsValid (items : List (Nat × WireVal)) : Prop :=
  ∀ it ∈ items, itemValid it = true

instance : DecidablePred itemsValid := by
  intro items
  unfold itemsValid
  exact List.decidableBAll _ items

theorem parseItems_encItems (items : List (Nat × WireVal))
    (hv : itemsValid items) :
    parseItems (encItems items) = some items := by
  induction items with
  | nil => simp [encItems, parseItems]
  | cons it its ih =>
    have hit : parseItem (encItem it ++ encItems its) = some (it, encItems its) :=
      parseItem_encItem it _ (hv it (by simp))
    have hne : encItem it ++ encItems its ≠ [] := by
      intro hcon
      have := parseItem_shrinks hit
      rw [hcon] at this
      simp at this
    have hrec : parseItems (encItems its) = some its :=
      ih (fun x hx => hv x (by simp [hx]))
    rw [show encItems (it :: its) = encItem it ++ encItems its from rfl]
    cases hsplit : encItem it ++ encItems its with
    | nil => exact absurd hsplit hne
    | cons b rest =>
      rw [parseItems, ← hsplit, hit]
      dsimp only
      rw [hrec]

/-! ### generic message decoding: fold field records into a struct -/

/-- Apply decoded field records to a message value one at a time,
proto3-style: later records overwrite singular fields and append to
repeated fields; a failing record fails the whole decode. -/
def applyItems (f : α → Nat × WireVal → Option α) :
    α → List (Nat × WireVal) → Option α
  | a, [] => some a
  | a, it :: its =>
    match f a it with
    | some a2 => applyItems f a2 its
    | none => none

theorem applyItems_append (f : α → Nat × WireVal → Option α) (a : α)
    (l1 l2 : List (Nat × WireVal)) :
    applyItems f a (l1 ++ l2) =
      match applyItems f a l1 with
      | some a2 => applyItems f a2 l2
      | none => none := by
  induction l1 generalizing a with
  | nil => simp [applyItems]
  | cons it its ih =>
    simp only [List.cons_append, applyItems]
    cases f a it with
    | none => rfl
    | some a2 => exact ih a2

theorem encVarint_ne_nil (n : Nat) : encVarint n ≠ [] := by
  rw [encVarint]
  split <;> simp

/-- Packed-repeated varint payload, as proto3 emits for `repeated int64`. -/
def encPacked (ns : List Nat) : List Nat :=
  ns.foldr (fun n acc => encVarint n ++ acc) []

def parsePacked (bs : List Nat) : Option (List Nat) :=
  match bs with
  | [] => some []
  | b :: rest =>
    match h : parseVarint (b :: rest) with
    | none => none
    | some (n, r) =>
      match parsePacked r with
      | some ns => some (n :: ns)
      | none => none
  termination_by bs.length
  decreasing_by exact parseVarint_shrinks h

theorem parsePacked_encPacked (ns : List Nat) :
    parsePacked (encPacked ns) = some ns := by
  induction ns with
  | nil => simp [encPacked, parsePacked]
  | cons n ns ih =>
    have hstep : encPacked (n :: ns) = encVarint n ++ encPacked ns := rfl
    cases hsplit : encVarint n ++ encPacked ns with
    | nil =>
      rcases List.append_eq_nil.mp hsplit with ⟨h1, _⟩
      exact absurd h1 (encVarint_ne_nil n)
    | cons b rest =>
      rw [hstep, hsplit, parsePacked, ← hsplit, parseVarint_encVarint]
      dsimp only
      rw [ih]

/-! ### TensorDef: shape (field 2, packed repeated int64), dtype (field 4,
enum DataType, an open proto3 enum carried as a varint) -/

/-- `TensorDef` from the `_TENSORDEF` descriptor: `shape` is field number 2,
repeated int64; `dtype` is field number 4, enum.  Wire integers are
modelled as Nat (the 64-bit pattern for int64, the enum number for dtype). -/
structure TensorDef where
  shape : List Nat
  dtype : Nat
deriving DecidableEq

/-- proto3 default instance: empty repeated field, zero enum. -/
def defaultTensorDef : TensorDef := ⟨[], 0⟩

def TensorDef.valid (td : TensorDef) : Bool :=
  td.shape.all (fun n => n < 2 ^ 64) && decide (td.dtype < 2 ^ 32)

/-- Encoder output for one `TensorDef`, skipping default-valued fields as
the proto3 runtime does. -/
def TensorDef.toItems (td : TensorDef) : List (Nat × WireVal) :=
  (if td.shape = [] then [] else [(2, .ld (encPacked td.shape))]) ++
  (if td.dtype = 0 then [] else [(4, .varint td.dtype)])

def encodeTensorDef (td : TensorDef) : List Nat := encItems td.toItems

/-- Decode-time handling of one field record for `TensorDef`.  Note there
is no validation of the enum number: proto3 enums are open, an unknown
`dtype` value is stored as-is.  Unknown fields are skipped. -/
def TensorDef.applyItem (td : TensorDef) : Nat × WireVal → Option TensorDef
  | (2, .ld p) =>
    match parsePacked p with
    | some ns => some { td with shape := td.shape ++ ns }
    | none => none
  | (2, .varint n) => some { td with shape := td.shape ++ [n] }
  | (4, .varint n) => some { td with dtype := n }
  | _ => some td

def decodeTensorDef (bs : List Nat) : Option TensorDef :=
  match parseItems bs with
  | some items => applyItems TensorDef.applyItem defaultTensorDef items
  | none => none

theorem tensorDef_items_valid (td : TensorDef) : itemsValid td.toItems := by
  intro it hit
  simp only [TensorDef.toItems, List.mem_append] at hit
  rcases hit with h | h <;> split at h <;> simp at h <;> subst h <;> rfl

theorem decode_encode_tensorDef (td : TensorDef) :
    decodeTensorDef (encodeTensorDef td) = some td := by
  obtain ⟨shape, dtype⟩ := td
  unfold decodeTensorDef encodeTensorDef
  rw [parseItems_encItems _ (tensorDef_items_valid _)]
  unfold TensorDef.toItems
  by_cases h1 : shape = [] <;> by_cases h2 : dtype = 0 <;>
    simp [h1, h2, applyItems, TensorDef.applyItem, parsePacked_encPacked,
      defaultTensorDef]

/-! ### Tensor: buffer (field 1, bytes), tensor_def (field 2, message) -/

/-- `Tensor` from the `_TENSOR` descriptor: `buffer` is field number 1,
bytes; `tensor_def` is field number 2, an optional submessage. -/
structure Tensor where
  buffer : List Nat
  tensor_def : Option TensorDef
deriving DecidableEq

def defaultTensor : Tensor := ⟨[], none⟩

def bytesValid (l : List Nat) : Bool := l.all (fun b => b < 256)

def Tensor.valid (t : Tensor) : Bool :=
  bytesValid t.buffer &&
  (match t.tensor_def with
   | none => true
   | some td => td.valid)

def Tensor.toItems (t : Tensor) : List (Nat × WireVal) :=
  (if t.buffer = [] then [] else [(1, .ld t.buffer)]) ++
  (match t.tensor_def with
   | none => []
   | some td => [(2, .ld (encodeTensorDef td))])

def encodeTensor (t : Tensor) : List Nat := encItems t.toItems

/-- Decode-time handling of one field record for `Tensor`.  Note there is
no cross-field validation: the buffer is stored exactly as received, with
no check of its length against the shape and dtype in `tensor_def`. -/
def Tensor.applyItem (t : Tensor) : Nat × WireVal → Option Tensor
  | (1, .ld p) => some { t with buffer := p }
  | (2, .ld p) =>
    match decodeTensorDef p with
    | some td => some { t with tensor_def := some td }
    | none => none
  | _ => some t

def decodeTensor (bs : List Nat) : Option Tensor :=
  match parseItems bs with
  | some items => applyItems Tensor.applyItem defaultTensor items
  | none => none

theorem tensor_items_valid (t : Tensor) : itemsValid t.toItems := by
  intro it hit
  simp only [Tensor.toItems, List.mem_append] at hit
  rcases hit with h | h
  · split at h <;> simp at h <;> subst h <;> rfl
  · split at h <;> simp at h <;> subst h <;> rfl

theorem decode_encode_tensor (t : Tensor) :
    decodeTensor (encodeTensor t) = some t := by
  obtain ⟨buf, tdo⟩ := t
  unfold decodeTensor encodeTensor
  rw [parseItems_encItems _ (tensor_items_valid _)]
  unfold Tensor.toItems
  by_cases h1 : buf = [] <;> cases tdo <;>
    simp [h1, applyItems, Tensor.applyItem, decode_encode_tensorDef,
      defaultTensor]

/-! ### TensorMessage: version(1, float32), neuron_key(2, string),
source_id(3, string), target_id(4, string), nounce(5, bytes),
signature(6, bytes), tensors(7, repeated Tensor) -/

/-- `TensorMessage` from the `_TENSORMESSAGE` descriptor.  The fifth field
is spelled `nounce` in the schema.  The float32 `version` is modelled by
its 32-bit pattern; strings and bytes are byte lists. -/
structure TensorMessage where
  version : Nat
  neuron_key : List Nat
  source_id : List Nat
  target_id : List Nat
  nounce : List Nat
  signature : List Nat
  tensors : List Tensor
deriving DecidableEq

def defaultTensorMessage : TensorMessage := ⟨0, [], [], [], [], [], []⟩

def TensorMessage.valid (m : TensorMessage) : Bool :=
  decide (m.version < 2 ^ 32) && bytesValid m.neuron_key &&
  bytesValid m.source_id && bytesValid m.target_id && bytesValid m.nounce &&
  bytesValid m.signature && m.tensors.all Tensor.valid

def TensorMessage.toItems (m : TensorMessage) : List (Nat × WireVal) :=
  (if m.version = 0 then [] else [(1, .i32 m.version)]) ++
  (if m.neuron_key = [] then [] else [(2, .ld m.neuron_key)]) ++
  (if m.source_id = [] then [] else [(3, .ld m.source_id)]) ++
  (if m.target_id = [] then [] else [(4, .ld m.target_id)]) ++
  (if m.nounce = [] then [] else [(5, .ld m.nounce)]) ++
  (if m.signature = [] then [] else [(6, .ld m.signature)]) ++
  m.tensors.map (fun t => (7, .ld (encodeTensor t)))

def encodeTensorMessage (m : TensorMessage) : List Nat := encItems m.toItems

def TensorMessage.applyItem (m : TensorMessage) :
    Nat × WireVal → Option TensorMessage
  | (1, .i32 n) => some { m with version := n }
  | (2, .ld p) => some { m with neuron_key := p }
  | (3, .ld p) => some { m with source_id := p }
  | (4, .ld p) => some { m with target_id := p }
  | (5, .ld p) => some { m with nounce := p }
  | (6, .ld p) => some { m with signature := p }
  | (7, .ld p) =>
    match decodeTensor p with
    | some t => some { m with tensors := m.tensors ++ [t] }
    | none => none
  | _ => some m

def decodeTensorMessage (bs : List Nat) : Option TensorMessage :=
  match parseItems bs with
  | some items => applyItems TensorMessage.applyItem defaultTensorMessage items
  | none => none

theorem tensorMessage_items_valid (m : TensorMessage)
    (hv : m.version < 2 ^ 32) : itemsValid m.toItems := by
  intro it hit
  simp only [TensorMessage.toItems, List.mem_append] at hit
  rcases hit with (((((h | h) | h) | h) | h) | h) | h
  · split at h
    · simp at h
    · simp at h
      subst h
      simp [itemValid]
      omega
  · split at h <;> simp at h
    subst h
    rfl
  · split at h <;> simp at h
    subst h
    rfl
  · split at h <;> simp at h
    subst h
    rfl
  · split at h <;> simp at h
    subst h
    rfl
  · split at h <;> simp at h
    subst h
    rfl
  · simp only [List.mem_map] at h
    obtain ⟨t, _, rfl⟩ := h
    rfl

theorem applyItems_tensorList (acc : TensorMessage) (ts : List Tensor) :
    applyItems TensorMessage.applyItem acc
      (ts.map fun t => (7, WireVal.ld (encodeTensor t))) =
      some { acc with tensors := acc.tensors ++ ts } := by
  induction ts generalizing acc with
  | nil => simp [applyItems]
  | cons t ts ih =>
    simp only [List.map_cons, applyItems, TensorMessage.applyItem,
      decode_encode_tensor]
    rw [ih]
    simp

theorem decode_encode_tensorMessage (m : TensorMessage)
    (hm : m.valid = true) :
    decodeTensorMessage (encodeTensorMessage m) = some m := by
  have hv : m.version < 2 ^ 32 := by
    simp only [TensorMessage.valid, Bool.and_eq_true, decide_eq_true_eq] at hm
    exact hm.1.1.1.1.1.1
  obtain ⟨v, nk, sid, tid, nn, sg, ts⟩ := m
  unfold decodeTensorMessage encodeTensorMessage
  rw [parseItems_encItems _ (tensorMessage_items_valid _ hv)]
  unfold TensorMessage.toItems
  by_cases h1 : v = 0 <;> by_cases h2 : nk = ([] : List Nat) <;>
    by_cases h3 : sid = ([] : List Nat) <;>
    by_cases h4 : tid = ([] : List Nat) <;>
    by_cases h5 : nn = ([] : List Nat) <;>
    by_cases h6 : sg = ([] : List Nat) <;>
    simp [h1, h2, h3, h4, h5, h6, applyItems, TensorMessage.applyItem,
      applyItems_tensorList, defaultTensorMessage]

/-! ### Synapse: version(1, float32), neuron_key(2, string),
signature(3, bytes), block_hash(4, bytes), proof_of_work(5, bytes),
identity(6, string), address(7, string), port(8, string),
m_port(9, string), indef(10, TensorDef), outdef(11, TensorDef) -/

/-- `Synapse` from the `_SYNAPSE` descriptor.  The ninth field is spelled
`m_port` and the TensorDef fields are spelled `indef` and `outdef` in the
schema. -/
structure Synapse where
  version : Nat
  neuron_key : List Nat
  signature : List Nat
  block_hash : List Nat
  proof_of_work : List Nat
  identity : List Nat
  address : List Nat
  port : List Nat
  m_port : List Nat
  indef : Option TensorDef
  outdef : Option TensorDef
deriving DecidableEq

def defaultSynapse : Synapse := ⟨0, [], [], [], [], [], [], [], [], none, none⟩

def Synapse.valid (s : Synapse) : Bool :=
  decide (s.version < 2 ^ 32) && bytesValid s.neuron_key &&
  bytesValid s.signature && bytesValid s.block_hash &&
  bytesValid s.proof_of_work && bytesValid s.identity &&
  bytesValid s.address && bytesValid s.port && bytesValid s.m_port &&
  (match s.indef with | none => true | some td => td.valid) &&
  (match s.outdef with | none => true | some td => td.valid)

def Synapse.toItems (s : Synapse) : List (Nat × WireVal) :=
  (if s.version = 0 then [] else [(1, .i32 s.version)]) ++
  (if s.neuron_key = [] then [] else [(2, .ld s.neuron_key)]) ++
  (if s.signature = [] then [] else [(3, .ld s.signature)]) ++
  (if s.block_hash = [] then [] else [(4, .ld s.block_hash)]) ++
  (if s.proof_of_work = [] then [] else [(5, .ld s.proof_of_work)]) ++
  (if s.identity = [] then [] else [(6, .ld s.identity)]) ++
  (if s.address = [] then [] else [(7, .ld s.address)]) ++
  (if s.port = [] then [] else [(8, .ld s.port)]) ++
  (if s.m_port = [] then [] else [(9, .ld s.m_port)]) ++
  (match s.indef with
   | none => []
   | some td => [(10, .ld (encodeTensorDef td))]) ++
  (match s.outdef with
   | none => []
   | some td => [(11, .ld (encodeTensorDef td))])

def encodeSynapse (s : Synapse) : List Nat := encItems s.toItems

def Synapse.applyItem (s : Synapse) : Nat × WireVal → Option Synapse
  | (1, .i32 n) => some { s with version := n }
  | (2, .ld p) => some { s with neuron_key := p }
  | (3, .ld p) => some { s with signature := p }
  | (4, .ld p) => some { s with block_hash := p }
  | (5, .ld p) => some { s with proof_of_work := p }
  | (6, .ld p) => some { s with identity := p }
  | (7, .ld p) => some { s with address := p }
  | (8, .ld p) => some { s with port := p }
  | (9, .ld p) => some { s with m_port := p }
  | (10, .ld p) =>
    match decodeTensorDef p with
    | some td => some { s with indef := some td }
    | none => none
  | (11, .ld p) =>
    match decodeTensorDef p with
    | some td => some { s with outdef := some td }
    | none => none
  | _ => some s

def decodeSynapse (bs : List Nat) : Option Synapse :=
  match parseItems bs with
  | some items => applyItems Synapse.applyItem defaultSynapse items
  | none => none

theorem synapse_items_valid (s : Synapse)
    (hv : s.version < 2 ^ 32) : itemsValid s.toItems := by
  intro it hit
  simp only [Synapse.toItems, List.mem_append] at hit
  rcases hit with
    (((((((((h | h) | h) | h) | h) | h) | h) | h) | h) | h) | h
  · split at h
    · simp at h
    · simp at h
      subst h
      simp [itemValid]
      omega
  all_goals
    split at h <;> simp at h
    subst h
    rfl

/-- Peel one conditionally-emitted singular field off the record list:
when the field held its default the encoder emitted nothing and the
accumulator is unchanged, otherwise the single record applies cleanly. -/
theorem applyItems_cond_chunk (f : α → Nat × WireVal → Option α)
    (acc acc2 : α) (c : Prop) [Decidable c] (it : Nat × WireVal)
    (rest : List (Nat × WireVal))
    (hskip : c → acc2 = acc) (happ : ¬c → f acc it = some acc2) :
    applyItems f acc ((if c then [] else [it]) ++ rest) =
      applyItems f acc2 rest := by
  by_cases h : c
  · rw [if_pos h, List.nil_append, hskip h]
  · rw [if_neg h]
    simp only [List.cons_append, List.nil_append, List.append_eq,
      applyItems, happ h]

set_option maxHeartbeats 2000000 in
theorem decode_encode_synapse (s : Synapse) (hs : s.valid = true) :
    decodeSynapse (encodeSynapse s) = some s := by
  have hv : s.version < 2 ^ 32 := by
    simp only [Synapse.valid, Bool.and_eq_true, decide_eq_true_eq] at hs
    exact hs.1.1.1.1.1.1.1.1.1.1
  obtain ⟨v, nk, sg, bh, pw, idt, adr, pt, mp, ido, odo⟩ := s
  unfold decodeSynapse encodeSynapse
  rw [parseItems_encItems _ (synapse_items_valid _ hv)]
  unfold Synapse.toItems
  simp only [List.append_assoc]
  rw [applyItems_cond_chunk Synapse.applyItem defaultSynapse
        ⟨v, [], [], [], [], [], [], [], [], none, none⟩ (v = 0)
        (1, WireVal.i32 v) _
        (fun h => by subst h; rfl) (fun _ => rfl),
      applyItems_cond_chunk Synapse.applyItem
        ⟨v, [], [], [], [], [], [], [], [], none, none⟩
        ⟨v, nk, [], [], [], [], [], [], [], none, none⟩ (nk = [])
        (2, WireVal.ld nk) _
        (fun h => by subst h; rfl) (fun _ => rfl),
      applyItems_cond_chunk Synapse.applyItem
        ⟨v, nk, [], [], [], [], [], [], [], none, none⟩
        ⟨v, nk, sg, [], [], [], [], [], [], none, none⟩ (sg = [])
        (3, WireVal.ld sg) _
        (fun h => by subst h; rfl) (fun _ => rfl),
      applyItems_cond_chunk Synapse.applyItem
        ⟨v, nk, sg, [], [], [], [], [], [], none, none⟩
        ⟨v, nk, sg, bh, [], [], [], [], [], none, none⟩ (bh = [])
        (4, WireVal.ld bh) _
        (fun h => by subst h; rfl) (fun _ => rfl),
      applyItems_cond_chunk Synapse.applyItem
        ⟨v, nk, sg, bh, [], [], [], [], [], none, none⟩
        ⟨v, nk, sg, bh, pw, [], [], [], [], none, none⟩ (pw = [])
        (5, WireVal.ld pw) _
        (fun h => by subst h; rfl) (fun _ => rfl),
      applyItems_cond_chunk Synapse.applyItem
        ⟨v, nk, sg, bh, pw, [], [], [], [], none, none⟩
        ⟨v, nk, sg, bh, pw, idt, [], [], [], none, none⟩ (idt = [])
        (6, WireVal.ld idt) _
        (fun h => by subst h; rfl) (fun _ => rfl),
      applyItems_cond_chunk Synapse.applyItem
        ⟨v, nk, sg, bh, pw, idt, [], [], [], none, none⟩
        ⟨v, nk, sg, bh, pw, idt, adr, [], [], none, none⟩ (adr = [])
        (7, WireVal.ld adr) _
        (fun h => by subst h; rfl) (fun _ => rfl),
      applyItems_cond_chunk Synapse.applyItem
        ⟨v, nk, sg, bh, pw, idt, adr, [], [], none, none⟩
        ⟨v, nk, sg, bh, pw, idt, adr, pt, [], none, none⟩ (pt = [])
        (8, WireVal.ld pt) _
        (fun h => by subst h; rfl) (fun _ => rfl),
      applyItems_cond_chunk Synapse.applyItem
        ⟨v, nk, sg, bh, pw, idt, adr, pt, [], none, none⟩
        ⟨v, nk, sg, bh, pw, idt, adr, pt, mp, none, none⟩ (mp = [])
        (9, WireVal.ld mp) _
        (fun h => by subst h; rfl) (fun _ => rfl)]
  cases ido <;> cases odo <;>
    simp [applyItems, Synapse.applyItem, decode_encode_tensorDef]

/-! ### SynapseBatch: version(1, float32), neuron_key(2, string),
signature(3, bytes), synapses(4, repeated Synapse) -/

/-- `SynapseBatch` from the `_SYNAPSEBATCH` descriptor. -/
structure SynapseBatch where
  version : Nat
  neuron_key : List Nat
  signature : List Nat
  synapses : List Synapse
deriving DecidableEq

def defaultSynapseBatch : SynapseBatch := ⟨0, [], [], []⟩

def SynapseBatch.valid (b : SynapseBatch) : Bool :=
  decide (b.version < 2 ^ 32) && bytesValid b.neuron_key &&
  bytesValid b.signature && b.synapses.all Synapse.valid

def SynapseBatch.toItems (b : SynapseBatch) : List (Nat × WireVal) :=
  (if b.version = 0 then [] else [(1, .i32 b.version)]) ++
  (if b.neuron_key = [] then [] else [(2, .ld b.neuron_key)]) ++
  (if b.signature = [] then [] else [(3, .ld b.signature)]) ++
  b.synapses.map (fun s => (4, .ld (encodeSynapse s)))

def encodeSynapseBatch (b : SynapseBatch) : List Nat := encItems b.toItems

def SynapseBatch.applyItem (b : SynapseBatch) :
    Nat × WireVal → Option SynapseBatch
  | (1, .i32 n) => some { b with version := n }
  | (2, .ld p) => some { b with neuron_key := p }
  | (3, .ld p) => some { b with signature := p }
  | (4, .ld p) =>
    match decodeSynapse p with
    | some s => some { b with synapses := b.synapses ++ [s] }
    | none => none
  | _ => some b

def decodeSynapseBatch (bs : List Nat) : Option SynapseBatch :=
  match parseItems bs with
  | some items => applyItems SynapseBatch.applyItem defaultSynapseBatch items
  | none => none

theorem synapseBatch_items_valid (b : SynapseBatch)
    (hv : b.version < 2 ^ 32) : itemsValid b.toItems := by
  intro it hit
  simp only [SynapseBatch.toItems, List.mem_append] at hit
  rcases hit with ((h | h) | h) | h
  · split at h
    · simp at h
    · simp at h
      subst h
      simp [itemValid]
      omega
  · split at h <;> simp at h
    subst h
    rfl
  · split at h <;> simp at h
    subst h
    rfl
  · simp only [List.mem_map] at h
    obtain ⟨s2, _, rfl⟩ := h
    rfl

theorem applyItems_synapseList (acc : SynapseBatch) (ss : List Synapse)
    (hss : ss.all Synapse.valid = true) :
    applyItems SynapseBatch.applyItem acc
      (ss.map fun s => (4, WireVal.ld (encodeSynapse s))) =
      some { acc with synapses := acc.synapses ++ ss } := by
  induction ss generalizing acc with
  | nil => simp [applyItems]
  | cons s ss ih =>
    simp only [List.all_cons, Bool.and_eq_true] at hss
    simp only [List.map_cons, applyItems, SynapseBatch.applyItem,
      decode_encode_synapse s hss.1]
    rw [ih _ hss.2]
    simp

theorem decode_encode_synapseBatch (b : SynapseBatch) (hb : b.valid = true) :
    decodeSynapseBatch (encodeSynapseBatch b) = some b := by
  simp only [SynapseBatch.valid, Bool.and_eq_true, decide_eq_true_eq] at hb
  have hv : b.version < 2 ^ 32 := hb.1.1.1
  have hss : b.synapses.all Synapse.valid = true := hb.2
  obtain ⟨v, nk, sg, ss⟩ := b
  unfold decodeSynapseBatch encodeSynapseBatch
  rw [parseItems_encItems _ (synapseBatch_items_valid _ hv)]
  unfold SynapseBatch.toItems
  simp only [List.append_assoc]
  rw [applyItems_cond_chunk SynapseBatch.applyItem defaultSynapseBatch
        ⟨v, [], [], []⟩ (v = 0) (1, WireVal.i32 v) _
        (fun h => by subst h; rfl) (fun _ => rfl),
      applyItems_cond_chunk SynapseBatch.applyItem ⟨v, [], [], []⟩
        ⟨v, nk, [], []⟩ (nk = []) (2, WireVal.ld nk) _
        (fun h => by subst h; rfl) (fun _ => rfl),
      applyItems_cond_chunk SynapseBatch.applyItem ⟨v, nk, [], []⟩
        ⟨v, nk, sg, []⟩ (sg = []) (3, WireVal.ld sg) _
        (fun h => by subst h; rfl) (fun _ => rfl),
      applyItems_synapseList ⟨v, nk, sg, []⟩ ss hss]
  simp

/-! ### the descriptor tables, transcribed from opentensor_pb2.py -/

/-- proto type code `TYPE_FLOAT` (the `type=2` in the FieldDescriptor). -/
def TYPE_FLOAT : Nat := 2

def TYPE_INT64 : Nat := 3

def TYPE_STRING : Nat := 9

def TYPE_MESSAGE : Nat := 11

def TYPE_BYTES : Nat := 12

def TYPE_ENUM : Nat := 14

def LABEL_OPTIONAL : Nat := 1

def LABEL_REPEATED : Nat := 3

/-- One field of a message descriptor: its `name=`, `number=`, `type=` and
`label=` entries, plus the message/enum type link set at the bottom of the
generated module (lines 381-386). -/
structure FieldSpec where
  name : String
  number : Nat
  ftype : Nat
  label : Nat
  messageType : Option String
  enumType : Option String
deriving DecidableEq

/-- `_SYNAPSEBATCH.fields` (lines 75-125). -/
def synapseBatchFields : List FieldSpec :=
  [⟨"version", 1, TYPE_FLOAT, LABEL_OPTIONAL, none, none⟩,
   ⟨"neuron_key", 2, TYPE_STRING, LABEL_OPTIONAL, none, none⟩,
   ⟨"signature", 3, TYPE_BYTES, LABEL_OPTIONAL, none, none⟩,
   ⟨"synapses", 4, TYPE_MESSAGE, LABEL_REPEATED, some "Synapse", none⟩]

/-- `_SYNAPSE.fields` (lines 128-227). -/
def synapseFields : List FieldSpec :=
  [⟨"version", 1, TYPE_FLOAT, LABEL_OPTIONAL, none, none⟩,
   ⟨"neuron_key", 2, TYPE_STRING, LABEL_OPTIONAL, none, none⟩,
   ⟨"signature", 3, TYPE_BYTES, LABEL_OPTIONAL, none, none⟩,
   ⟨"block_hash", 4, TYPE_BYTES, LABEL_OPTIONAL, none, none⟩,
   ⟨"proof_of_work", 5, TYPE_BYTES, LABEL_OPTIONAL, none, none⟩,
   ⟨"identity", 6, TYPE_STRING, LABEL_OPTIONAL, none, none⟩,
   ⟨"address", 7, TYPE_STRING, LABEL_OPTIONAL, none, none⟩,
   ⟨"port", 8, TYPE_STRING, LABEL_OPTIONAL, none, none⟩,
   ⟨"m_port", 9, TYPE_STRING, LABEL_OPTIONAL, none, none⟩,
   ⟨"indef", 10, TYPE_MESSAGE, LABEL_OPTIONAL, some "TensorDef", none⟩,
   ⟨"outdef", 11, TYPE_MESSAGE, LABEL_OPTIONAL, some "TensorDef", none⟩]

/-- `_TENSORMESSAGE.fields` (lines 230-301). -/
def tensorMessageFields : List FieldSpec :=
  [⟨"version", 1, TYPE_FLOAT, LABEL_OPTIONAL, none, none⟩,
   ⟨"neuron_key", 2, TYPE_STRING, LABEL_OPTIONAL, none, none⟩,
   ⟨"source_id", 3, TYPE_STRING, LABEL_OPTIONAL, none, none⟩,
   ⟨"target_id", 4, TYPE_STRING, LABEL_OPTIONAL, none, none⟩,
   ⟨"nounce", 5, TYPE_BYTES, LABEL_OPTIONAL, none, none⟩,
   ⟨"signature", 6, TYPE_BYTES, LABEL_OPTIONAL, none, none⟩,
   ⟨"tensors", 7, TYPE_MESSAGE, LABEL_REPEATED, some "Tensor", none⟩]

/-- `_TENSOR.fields` (lines 304-340). -/
def tensorFields : List FieldSpec :=
  [⟨"buffer", 1, TYPE_BYTES, LABEL_OPTIONAL, none, none⟩,
   ⟨"tensor_def", 2, TYPE_MESSAGE, LABEL_OPTIONAL, some "TensorDef", none⟩]

/-- `_TENSORDEF.fields` (lines 343-379). -/
def tensorDefFields : List FieldSpec :=
  [⟨"shape", 2, TYPE_INT64, LABEL_REPEATED, none, none⟩,
   ⟨"dtype", 4, TYPE_ENUM, LABEL_OPTIONAL, none, some "DataType"⟩]

/-- `_DATATYPE.values` (lines 26-63): (name, number) of each enum value. -/
def dataTypeValues : List (String × Nat) :=
  [("DT_FLOAT32", 0), ("DT_FLOAT64", 1), ("DT_INT32", 2), ("DT_INT64", 3),
   ("UNKNOWN", 4)]

/-- One RPC method of a ServiceDescriptor: name, input type, output type. -/
structure MethodSpec where
  name : String
  inputType : String
  outputType : String
deriving DecidableEq

/-- `_OPENTENSOR.methods` (lines 432-462). -/
def opentensorMethods : List MethodSpec :=
  [⟨"Fwd", "TensorMessage", "TensorMessage"⟩,
   ⟨"Bwd", "TensorMessage", "TensorMessage"⟩]

/-- `_METAGRAPH.methods` (lines 468-489). -/
def metagraphMethods : List MethodSpec :=
  [⟨"Gossip", "SynapseBatch", "SynapseBatch"⟩]

/-! ### the spec's shape contract, for the claims about validation -/

/-- Modelled from the spec: `size_of(dtype)` of the shape contract
`len(buffer) = product(shape) * size_of(dtype)`.  No validation code
exists in the repository (the schema is all there is), so the element
sizes come from the spec's dtype list: 4-byte FLOAT32/INT32, 8-byte
FLOAT64/INT64; UNKNOWN has no size and is mapped to 0. -/
def dtypeSize : Nat → Nat
  | 0 => 4
  | 1 => 8
  | 2 => 4
  | 3 => 8
  | _ => 0

/-- `product(shape)`. -/
def listProd : List Nat → Nat
  | [] => 1
  | n :: ns => n * listProd ns

theorem parseItems_cons_none {b : Nat} {rest : List Nat}
    (h : parseItem (b :: rest) = none) : parseItems (b :: rest) = none := by
  rw [parseItems]
  split <;> simp_all

/-- A length-delimited field whose declared length exceeds the remaining
input fails the whole decode (input truncated mid-field). -/
theorem decodeTensor_truncated (L : Nat) (p : List Nat) (h : p.length < L) :
    decodeTensor (10 :: (encVarint L ++ p)) = none := by
  have h10 : parseVarint (10 :: (encVarint L ++ p)) =
      some (10, encVarint L ++ p) := by
    simp [parseVarint]
  have hitem : parseItem (10 :: (encVarint L ++ p)) = none := by
    unfold parseItem
    rw [h10]
    simp only [show (10 : Nat) % 8 = 2 from rfl]
    rw [parseVarint_encVarint]
    simp only [if_neg (by omega : ¬ L ≤ p.length)]
  unfold decodeTensor
  rw [parseItems_cons_none hitem]

end Opentensor

namespace CifarExample

/-!
Model of src/examples/cifar/main.py.  `ℚ` stands in for Python floats:
the only arithmetic the claims touch is `0.0` division and comparison,
which is exact.  A batch's contribution to `correct` is abstracted by a
function `correctOf` (it depends on the model's predictions, which are
external to this core).
-/

/-- The accumulation loop of `test` (lines 125-137): `loss = 0.0;
correct = 0.0`, then per batch only `correct += ...` runs — no statement
ever adds to `loss`. -/
def testAccumulate (correctOf : α → ℚ) (batches : List α) : ℚ × ℚ :=
  batches.foldl (fun acc b => (acc.1, acc.2 + correctOf b)) (0, 0)

/-- Lines 140-144: `n = len(testset)`, `loss /= n`,
`accuracy = (100. * correct) / n`, returning `(loss, accuracy)`.
`n` abstracts `len(testset)`. -/
def test (correctOf : α → ℚ) (batches : List α) (n : ℚ) : ℚ × ℚ :=
  ((testAccumulate correctOf batches).1 / n,
   100 * (testAccumulate correctOf batches).2 / n)

/-- State carried around the `while True` loop (lines 147-163):
`best_test_loss` starts at `math.inf` (modelled as `none`); `saves`
counts executions of the save branch. -/
structure LoopState where
  best_test_loss : Option ℚ
  epoch : Nat
  saves : Nat
deriving DecidableEq

/-- The strict-improvement check `test_loss < best_test_loss` with
`math.inf` as `none`. -/
def ltBest (x : ℚ) : Option ℚ → Bool
  | none => true
  | some b => decide (x < b)

/-- One iteration of the while loop body after `train`: test, compare,
save on strict improvement, bump `epoch`. -/
def epochStep (test_loss : ℚ) (s : LoopState) : LoopState :=
  if ltBest test_loss s.best_test_loss then
    ⟨some test_loss, s.epoch + 1, s.saves + 1⟩
  else
    ⟨s.best_test_loss, s.epoch + 1, s.saves⟩

/-- Run `k` iterations of the loop; `modelAt k` gives the model's
per-batch correct counts after `k` epochs of training (arbitrary — the
loss fed into the save decision is whatever `test` returns). -/
def runEpochs (modelAt : Nat → α → ℚ) (batches : List α) (n : ℚ) :
    Nat → LoopState
  | 0 => ⟨none, 0, 0⟩
  | k + 1 =>
    epochStep (test (modelAt k) batches n).1 (runEpochs modelAt batches n k)

theorem testAccumulate_fst (correctOf : α → ℚ) (batches : List α)
    (x y : ℚ) :
    (batches.foldl (fun acc b => (acc.1, acc.2 + correctOf b)) (x, y)).1
      = x := by
  induction batches generalizing y with
  | nil => rfl
  | cons b bs ih => exact ih (y + correctOf b)

theorem test_fst_eq_zero (correctOf : α → ℚ) (batches : List α) (n : ℚ) :
    (test correctOf batches n).1 = 0 := by
  unfold test testAccumulate
  rw [testAccumulate_fst]
  exact zero_div n

theorem runEpochs_closed_form (modelAt : Nat → α → ℚ) (batches : List α)
    (n : ℚ) (k : Nat) :
    runEpochs modelAt batches n k =
      if k = 0 then ⟨none, 0, 0⟩ else ⟨some 0, k, 1⟩ := by
  induction k with
  | zero => rfl
  | succ j ih =>
    rw [runEpochs, ih, test_fst_eq_zero]
    by_cases hj : j = 0
    · subst hj
      simp [epochStep, ltBest]
    · rw [if_neg hj, if_neg (Nat.succ_ne_zero j)]
      simp [epochStep, ltBest]

end CifarExample

namespace CifarScope

/-!
Model of Python local-name scoping for `main` in
src/examples/cifar/main.py.  A name assigned anywhere in a function body
is a local of that function; reading it before its first assignment
raises UnboundLocalError.  Statements are abstracted to the names each
line assigns and reads, in evaluation order.
-/

inductive PyErr where
  | unboundLocal (name : String)
deriving DecidableEq

/-- A statement of `main`'s body: a plain (possibly tuple) assignment, or
the `if config._hparams.load_model is not None:` block of lines 57-60,
whose body is itself a list of assignments. -/
inductive Stmt where
  | assign (targets : List String) (reads : List String)
  | ifLoadModel (body : List (List String × List String))
deriving DecidableEq

/-- First name in `reads` that is a local of the function but not yet
bound — the name whose read raises UnboundLocalError.  Non-local names
resolve to globals/builtins and never raise here. -/
def firstBadRead (locals bound : List String) : List String → Option String
  | [] => none
  | v :: vs =>
    if locals.contains v && !(bound.contains v) then some v
    else firstBadRead locals bound vs

def execAssigns (locals : List String) :
    List String → List (List String × List String) →
      Except PyErr (List String)
  | bound, [] => .ok bound
  | bound, (ts, rs) :: rest =>
    match firstBadRead locals bound rs with
    | some v => .error (.unboundLocal v)
    | none => execAssigns locals (ts ++ bound) rest

def execStmts (loadModelSet : Bool) (locals : List String) :
    List String → List Stmt → Except PyErr (List String)
  | bound, [] => .ok bound
  | bound, .assign ts rs :: rest =>
    match firstBadRead locals bound rs with
    | some v => .error (.unboundLocal v)
    | none => execStmts loadModelSet locals (ts ++ bound) rest
  | bound, .ifLoadModel body :: rest =>
    if loadModelSet then
      match execAssigns locals bound body with
      | .ok bound2 => execStmts loadModelSet locals bound2 rest
      | .error e => .error e
    else execStmts loadModelSet locals bound rest

def isOk : Except PyErr (List String) → Bool
  | .ok _ => true
  | .error _ => false

/-- The names assigned somewhere in `main`'s body, plus its parameter
`hparams`: Python's set of locals for `main`. -/
def mainLocals : List String :=
  ["hparams", "batch_size_train", "batch_size_test", "learning_rate",
   "momentum", "log_interval", "epoch", "global_step", "best_test_loss",
   "device", "model", "config", "model_toolbox", "trainset", "trainloader",
   "testset", "testloader", "writer", "optimizer", "train", "test",
   "test_loss"]

/-- Lines 32-76 and the first statement of the while body (line 150,
where training begins), as (targets, reads) per line.  The load_model
call at line 59 evaluates `model_toolbox.load_model`, then its arguments
`model`, `config._hparams.load_model`, `optimizer`, in that order, before
assigning the result tuple. -/
def mainStmts : List Stmt :=
  [.assign ["batch_size_train"] [],
   .assign ["batch_size_test"] [],
   .assign ["learning_rate"] [],
   .assign ["momentum"] [],
   .assign ["log_interval"] [],
   .assign ["epoch"] [],
   .assign ["global_step"] [],
   .assign ["best_test_loss"] ["math"],
   .assign ["device"] ["torch"],
   .assign ["model"] ["MnistSynapse"],
   .assign [] ["model", "device"],
   .assign ["config"] ["bittensor", "hparams"],
   .assign [] ["bittensor", "config"],
   .assign [] ["bittensor", "model"],
   .assign [] ["bittensor"],
   .assign ["model_toolbox"] ["ModelToolbox"],
   .ifLoadModel
     [(["model", "optimizer", "epoch", "best_test_loss"],
       ["model_toolbox", "model", "config", "optimizer"]),
      ([], ["logger", "config", "best_test_loss", "epoch"])],
   .assign ["trainset"] ["torchvision", "model_toolbox", "transforms"],
   .assign ["trainloader"] ["torch", "trainset", "batch_size_train"],
   .assign ["testset"] ["torchvision", "model_toolbox", "transforms"],
   .assign ["testloader"] ["torch", "testset", "batch_size_test"],
   .assign ["writer"] ["SummaryWriter", "model_toolbox"],
   .assign ["optimizer"] ["optim", "model", "learning_rate", "momentum"],
   .assign ["train"] [],
   .assign ["test"] [],
   .assign [] ["train", "model", "epoch", "global_step"]]

end CifarScope

/-! ## The claims -/

open Opentensor CifarExample CifarScope

/-- Concrete sample entities used by the witnesses. -/
def sampleTensorDef : TensorDef := ⟨[2, 3], 1⟩

def sampleTensor : Tensor := ⟨[0, 1, 255], some sampleTensorDef⟩

def sampleTensorMessage : TensorMessage :=
  ⟨1065353216, [107], [97], [98], [9], [7], [sampleTensor]⟩

def sampleSynapse : Synapse :=
  ⟨1065353216, [107, 49], [1, 2], [3], [4], [110], [104], [56, 48],
   [57, 48], some sampleTensorDef, some ⟨[10], 0⟩⟩

def sampleSynapseBatch : SynapseBatch :=
  ⟨1065353216, [107], [5], [sampleSynapse]⟩

/-- A Tensor whose buffer length (1) disagrees with
product(shape) * size_of(dtype) = 2 * 4 = 8. -/
def mismatchTensor : Tensor := ⟨[0], some ⟨[2], 0⟩⟩

/-- C1: for every valid entity of the wire schema (Synapse, SynapseBatch,
TensorDef, Tensor, TensorMessage), decoding the bytes produced by
encoding it yields a value equal to the original:
decode(encode(x)) = x. -/
theorem c1_roundtrip :
    (∀ td : TensorDef, td.valid = true →
        decodeTensorDef (encodeTensorDef td) = some td) ∧
    (∀ t : Tensor, t.valid = true →
        decodeTensor (encodeTensor t) = some t) ∧
    (∀ m : TensorMessage, m.valid = true →
        decodeTensorMessage (encodeTensorMessage m) = some m) ∧
    (∀ s : Synapse, s.valid = true →
        decodeSynapse (encodeSynapse s) = some s) ∧
    (∀ b : SynapseBatch, b.valid = true →
        decodeSynapseBatch (encodeSynapseBatch b) = some b) :=
  ⟨fun td _ => decode_encode_tensorDef td,
   fun t _ => decode_encode_tensor t,
   decode_encode_tensorMessage,
   decode_encode_synapse,
   decode_encode_synapseBatch⟩

/-- Witness for C1: the round-trip at concrete valid entities of each of
the five message types. -/
theorem c1_roundtrip_witness :
    (sampleTensorDef.valid = true ∧
      decodeTensorDef (encodeTensorDef sampleTensorDef) =
        some sampleTensorDef) ∧
    (sampleTensor.valid = true ∧
      decodeTensor (encodeTensor sampleTensor) = some sampleTensor) ∧
    (sampleTensorMessage.valid = true ∧
      decodeTensorMessage (encodeTensorMessage sampleTensorMessage) =
        some sampleTensorMessage) ∧
    (sampleSynapse.valid = true ∧
      decodeSynapse (encodeSynapse sampleSynapse) = some sampleSynapse) ∧
    (sampleSynapseBatch.valid = true ∧
      decodeSynapseBatch (encodeSynapseBatch sampleSynapseBatch) =
        some sampleSynapseBatch) :=
  ⟨⟨by decide, c1_roundtrip.1 sampleTensorDef (by decide)⟩,
   ⟨by decide, c1_roundtrip.2.1 sampleTensor (by decide)⟩,
   ⟨by decide, c1_roundtrip.2.2.1 sampleTensorMessage (by decide)⟩,
   ⟨by decide, c1_roundtrip.2.2.2.1 sampleSynapse (by decide)⟩,
   ⟨by decide, c1_roundtrip.2.2.2.2 sampleSynapseBatch (by decide)⟩⟩

/-- C2 counterexample: a byte string whose decoded Tensor has
len(buffer) = 1 different from product(shape) * size_of(dtype) = 8
decodes successfully to a Tensor value — decoding neither fails nor
truncates, because the schema carries no length validation at all. -/
theorem c2_counterexample :
    encodeTensor mismatchTensor = [10, 1, 0, 18, 3, 18, 1, 2] ∧
    decodeTensor [10, 1, 0, 18, 3, 18, 1, 2] = some mismatchTensor ∧
    mismatchTensor.tensor_def = some ⟨[2], 0⟩ ∧
    mismatchTensor.buffer.length ≠ listProd [2] * dtypeSize 0 := by
  refine ⟨?_, ?_, rfl, by decide⟩
  · simp [encodeTensor, Tensor.toItems, mismatchTensor, encodeTensorDef,
      TensorDef.toItems, encItems, encItem, encVarint_small, encPacked]
  · simp [mismatchTensor, decodeTensor, decodeTensorDef, parseItems,
      parseItem, parseVarint, applyItems, Tensor.applyItem,
      TensorDef.applyItem, defaultTensor, defaultTensorDef, parsePacked]

/-- C2 amended: decoding a Tensor performs no buffer-length validation:
a Tensor whose len(buffer) differs from product(shape) * size_of(dtype)
still decodes successfully, and the buffer round-trips exactly (no
silent truncation and no failure). -/
theorem c2_no_length_validation (t : Tensor) (td : TensorDef)
    (hdef : t.tensor_def = some td)
    (hmis : t.buffer.length ≠ listProd td.shape * dtypeSize td.dtype) :
    decodeTensor (encodeTensor t) = some t :=
  decode_encode_tensor t

/-- Witness for the amended C2, at the concrete mismatched Tensor. -/
theorem c2_no_length_validation_witness :
    (mismatchTensor.tensor_def = some ⟨[2], 0⟩ ∧
      mismatchTensor.buffer.length ≠ listProd [2] * dtypeSize 0) ∧
    decodeTensor (encodeTensor mismatchTensor) = some mismatchTensor :=
  ⟨⟨rfl, by decide⟩,
   c2_no_length_validation mismatchTensor ⟨[2], 0⟩ rfl (by decide)⟩

/-- C3 counterexample: the byte string [32, 7] carries value 7 for
TensorDef.dtype — not the number of any DataType enum value — yet
decoding succeeds and returns the value as-is (proto3 open enums),
instead of failing with MalformedMessage. -/
theorem c3_counterexample :
    decodeTensorDef [32, 7] = some ⟨[], 7⟩ ∧
    ∀ p ∈ dataTypeValues, p.2 ≠ 7 := by
  constructor
  · simp [decodeTensorDef, parseItems, parseItem, parseVarint, applyItems,
      TensorDef.applyItem, defaultTensorDef]
  · decide

/-- C3 amended: decode fails (returns none) on input truncated mid-field
— a length-delimited field announcing more bytes than remain, or a tag
with its value bytes missing — but an invalid enum value for
TensorDef.dtype decodes successfully (the unknown number is kept), a
shape/buffer length mismatch decodes successfully, and no MalformedMessage
type exists in the code. -/
theorem c3_decode_failure_modes :
    (∀ (L : Nat) (p : List Nat), p.length < L →
        decodeTensor (10 :: (encVarint L ++ p)) = none) ∧
    decodeSynapse [10] = none ∧
    decodeTensorMessage [13] = none ∧
    decodeTensorDef [32, 7] = some ⟨[], 7⟩ ∧
    decodeTensor (encodeTensor mismatchTensor) = some mismatchTensor := by
  refine ⟨decodeTensor_truncated, ?_, ?_, ?_,
    decode_encode_tensor mismatchTensor⟩
  · simp [decodeSynapse, parseItems, parseItem, parseVarint]
  · simp [decodeTensorMessage, parseItems, parseItem, parseVarint,
      parseFixed]
  · simp [decodeTensorDef, parseItems, parseItem, parseVarint, applyItems,
      TensorDef.applyItem, defaultTensorDef]

/-- Witness for the amended C3: a length-delimited buffer field that
declares 2 bytes but provides only 1 fails to decode. -/
theorem c3_decode_failure_modes_witness :
    ([5] : List Nat).length < 2 ∧
    decodeTensor (10 :: (encVarint 2 ++ [5])) = none :=
  ⟨by decide, c3_decode_failure_modes.1 2 [5] (by decide)⟩

/-- C4 counterexample: the TensorMessage descriptor's field names are not
those the claim lists — the fifth field is named "nounce", not "nonce". -/
theorem c4_counterexample :
    tensorMessageFields.map FieldSpec.name ≠
      ["version", "neuron_key", "source_id", "target_id", "nonce",
       "signature", "tensors"] ∧
    (tensorMessageFields.map FieldSpec.name)[4]? = some "nounce" := by
  decide

/-- C4 amended: the TensorMessage wire message consists of exactly the
fields, in order: version (float32), neuron_key (string), source_id
(string), target_id (string), nounce (bytes) — the fifth field is
spelled "nounce" — signature (bytes), tensors (repeated Tensor). -/
theorem c4_fields :
    tensorMessageFields.map
        (fun f => (f.name, f.number, f.ftype, f.label, f.messageType)) =
      [("version", 1, TYPE_FLOAT, LABEL_OPTIONAL, none),
       ("neuron_key", 2, TYPE_STRING, LABEL_OPTIONAL, none),
       ("source_id", 3, TYPE_STRING, LABEL_OPTIONAL, none),
       ("target_id", 4, TYPE_STRING, LABEL_OPTIONAL, none),
       ("nounce", 5, TYPE_BYTES, LABEL_OPTIONAL, none),
       ("signature", 6, TYPE_BYTES, LABEL_OPTIONAL, none),
       ("tensors", 7, TYPE_MESSAGE, LABEL_REPEATED, some "Tensor")] := by
  decide

/-- C5 counterexample: the Synapse descriptor's field names are not those
the claim lists — the last three are "m_port", "indef" and "outdef", not
"metagraph_port", "input_def" and "output_def". -/
theorem c5_counterexample :
    synapseFields.map FieldSpec.name ≠
      ["version", "neuron_key", "signature", "block_hash",
       "proof_of_work", "identity", "address", "port", "metagraph_port",
       "input_def", "output_def"] ∧
    (synapseFields.map FieldSpec.name)[8]? = some "m_port" ∧
    (synapseFields.map FieldSpec.name)[9]? = some "indef" ∧
    (synapseFields.map FieldSpec.name)[10]? = some "outdef" := by
  decide

/-- C5 amended: the Synapse wire message consists of exactly the fields,
in order: version (float32), neuron_key (string), signature (bytes),
block_hash (bytes), proof_of_work (bytes), identity (string), address
(string), port (string), m_port (string), indef (TensorDef), outdef
(TensorDef) — the last three spelled as in the schema. -/
theorem c5_fields :
    synapseFields.map
        (fun f => (f.name, f.number, f.ftype, f.label, f.messageType)) =
      [("version", 1, TYPE_FLOAT, LABEL_OPTIONAL, none),
       ("neuron_key", 2, TYPE_STRING, LABEL_OPTIONAL, none),
       ("signature", 3, TYPE_BYTES, LABEL_OPTIONAL, none),
       ("block_hash", 4, TYPE_BYTES, LABEL_OPTIONAL, none),
       ("proof_of_work", 5, TYPE_BYTES, LABEL_OPTIONAL, none),
       ("identity", 6, TYPE_STRING, LABEL_OPTIONAL, none),
       ("address", 7, TYPE_STRING, LABEL_OPTIONAL, none),
       ("port", 8, TYPE_STRING, LABEL_OPTIONAL, none),
       ("m_port", 9, TYPE_STRING, LABEL_OPTIONAL, none),
       ("indef", 10, TYPE_MESSAGE, LABEL_OPTIONAL, some "TensorDef"),
       ("outdef", 11, TYPE_MESSAGE, LABEL_OPTIONAL, some "TensorDef")] := by
  decide

/-- C6: encoding is deterministic — for every wire entity, encode is a
function of the logical value alone, so equal values always produce
identical byte strings. -/
theorem c6_deterministic :
    (∀ a b : TensorDef, a = b → encodeTensorDef a = encodeTensorDef b) ∧
    (∀ a b : Tensor, a = b → encodeTensor a = encodeTensor b) ∧
    (∀ a b : TensorMessage, a = b →
        encodeTensorMessage a = encodeTensorMessage b) ∧
    (∀ a b : Synapse, a = b → encodeSynapse a = encodeSynapse b) ∧
    (∀ a b : SynapseBatch, a = b →
        encodeSynapseBatch a = encodeSynapseBatch b) := by
  refine ⟨?_, ?_, ?_, ?_, ?_⟩ <;> exact fun a b h => by rw [h]

/-- Witness for C6 at a concrete TensorMessage. -/
theorem c6_deterministic_witness :
    sampleTensorMessage = sampleTensorMessage ∧
    encodeTensorMessage sampleTensorMessage =
      encodeTensorMessage sampleTensorMessage :=
  ⟨rfl, c6_deterministic.2.2.1 sampleTensorMessage sampleTensorMessage rfl⟩

/-- C7 counterexample: the DataType enum value names carry a DT_ prefix —
the value numbered 0 is named "DT_FLOAT32", not "FLOAT32". -/
theorem c7_counterexample :
    dataTypeValues.map Prod.fst ≠
      ["FLOAT32", "FLOAT64", "INT32", "INT64", "UNKNOWN"] ∧
    dataTypeValues[0]? = some ("DT_FLOAT32", 0) := by
  decide

/-- C7 amended: TensorDef has a shape field of repeated int64 and a dtype
field of the DataType enum, whose values are DT_FLOAT32=0, DT_FLOAT64=1,
DT_INT32=2, DT_INT64=3, UNKNOWN=4. -/
theorem c7_tensorDef_schema :
    tensorDefFields.map (fun f => (f.name, f.ftype, f.label, f.enumType)) =
      [("shape", TYPE_INT64, LABEL_REPEATED, none),
       ("dtype", TYPE_ENUM, LABEL_OPTIONAL, some "DataType")] ∧
    dataTypeValues =
      [("DT_FLOAT32", 0), ("DT_FLOAT64", 1), ("DT_INT32", 2),
       ("DT_INT64", 3), ("UNKNOWN", 4)] := by
  decide

/-- C8: the RPC surface offers exactly three request/response methods:
Fwd(TensorMessage) -> TensorMessage and Bwd(TensorMessage) ->
TensorMessage on the Opentensor service, and Gossip(SynapseBatch) ->
SynapseBatch on the Metagraph service. -/
theorem c8_rpc_surface :
    opentensorMethods ++ metagraphMethods =
      [⟨"Fwd", "TensorMessage", "TensorMessage"⟩,
       ⟨"Bwd", "TensorMessage", "TensorMessage"⟩,
       ⟨"Gossip", "SynapseBatch", "SynapseBatch"⟩] := by
  decide

/-- C9: in the CIFAR example, `test` returns a loss of exactly 0 for
every model and every non-empty test set (the loop never accumulates into
the loss variable it divides and returns); in the epoch loop the first
epoch sets best_test_loss to 0, after which `test_loss < best_test_loss`
is always false, so the model is saved at most once. -/
theorem c9_test_loss_zero_saves_once :
    ∀ {α : Type} (modelAt : Nat → α → ℚ) (batches : List α) (n : ℚ),
      0 < n →
      (∀ k, (test (modelAt k) batches n).1 = 0) ∧
      (∀ k, 1 ≤ k →
          runEpochs modelAt batches n k = ⟨some 0, k, 1⟩) ∧
      (∀ k, (runEpochs modelAt batches n k).saves ≤ 1) := by
  intro α modelAt batches n _
  refine ⟨fun k => test_fst_eq_zero _ _ _, fun k hk => ?_, fun k => ?_⟩
  · rw [runEpochs_closed_form, if_neg (by omega)]
  · rw [runEpochs_closed_form]
    split <;> simp

/-- Witness for C9 with a one-batch test set and five epochs. -/
theorem c9_test_loss_zero_saves_once_witness :
    (0 : ℚ) < 2 ∧
    (test (fun _ : Nat => (3 : ℚ)) [7] 2).1 = 0 ∧
    runEpochs (fun _ (_ : Nat) => (3 : ℚ)) [7] 2 5 = ⟨some 0, 5, 1⟩ ∧
    (runEpochs (fun _ (_ : Nat) => (3 : ℚ)) [7] 2 5).saves ≤ 1 := by
  have h := c9_test_loss_zero_saves_once (fun _ (_ : Nat) => (3 : ℚ))
    [7] 2 (by decide)
  exact ⟨by decide, h.1 0, h.2.1 5 (by decide), h.2.2 5⟩

/-- C10: in the CIFAR example, when the load_model option is set, main
reads the local `optimizer` at line 59 before its assignment at line 76,
so execution fails with UnboundLocalError("optimizer") — already within
the first 17 statements, before the optimizer assignment and before any
training — while with load_model unset the body runs through. -/
theorem c10_load_model_unbound :
    execStmts true mainLocals ["hparams"] mainStmts =
      .error (.unboundLocal "optimizer") ∧
    execStmts true mainLocals ["hparams"] (mainStmts.take 17) =
      .error (.unboundLocal "optimizer") ∧
    isOk (execStmts false mainLocals ["hparams"] mainStmts) = true :=
  ⟨rfl, rfl, rfl⟩
